import Mathlib

/-!
Verification of the gauge (MasterChef-style liquidity-mining) contract in
`contracts/tokenomics/gauge/src/contract.rs`.

Shallow embedding conventions:
* `Uint64` / `Uint128` values are `Nat`s; the `checked_*` operations of
  `cosmwasm_std` are embedded as `Except StdErr Nat` with the exact
  `2 ^ 64` / `2 ^ 128` bounds.  Unchecked arithmetic (which would panic in
  Rust only on overflow) is plain `Nat` arithmetic.
* `Decimal` (18-decimal fixed point backed by `Uint128`) is embedded as its
  atomics: `Decimal.from_ratio a b` is `a * 10^18 / b`, and the
  `Uint128 * Decimal` product is `amount * atomics / 10^18` (both floor,
  exactly as `multiply_ratio` does).
* Addresses (`Addr`) are `Nat` identifiers; `addr_validate` is the identity.
* External collaborators (the reward proxy's `Deposit`/`Reward` queries, the
  LP cw20 balance of the contract, the ASTRO balance of the contract) are an
  explicit `ExtState` of query responses.
* Outgoing `SubMsg`s are the `OutMsg` inductive; storage maps
  (`POOL_INFO`, `USER_INFO`) are association lists keyed by address ids.
* A `Result`/`StdResult` is `Except`; an `Err` return in the contract aborts
  the whole action with no state commit, so an `.error` result here stands
  for "state unchanged".
-/

namespace AstroportGauge

set_option synthInstance.maxSize 1024
set_option maxHeartbeats 1000000

/-! ## Numeric primitives (cosmwasm_std checked arithmetic) -/

/-- Arithmetic / standard errors of `cosmwasm_std::StdError`, restricted to
the variants the gauge can produce. -/
inductive StdErr where
  | underflow
  | overflow
  | divideByZero
  | generic (msg : String)
deriving DecidableEq

instance {ε α : Type} [DecidableEq ε] [DecidableEq α] :
    DecidableEq (Except ε α) := fun x y =>
  match x, y with
  | .ok a, .ok b =>
      if h : a = b then isTrue (by rw [h])
      else isFalse (fun hc => h (Except.ok.inj hc))
  | .error a, .error b =>
      if h : a = b then isTrue (by rw [h])
      else isFalse (fun hc => h (Except.error.inj hc))
  | .ok _, .error _ => isFalse (fun hc => Except.noConfusion hc)
  | .error _, .ok _ => isFalse (fun hc => Except.noConfusion hc)

/-- `Except` bind on a success, for rewriting. -/
theorem ok_bind {ε α β : Type} (a : α) (f : α → Except ε β) :
    (Except.ok a : Except ε α) >>= f = f a := rfl

/-- `Except` bind on an error, for rewriting. -/
theorem error_bind {ε α β : Type} (e : ε) (f : α → Except ε β) :
    (Except.error e : Except ε α) >>= f = Except.error e := rfl

/-- `throw` on `Except` is `Except.error`. -/
theorem throw_eq {ε α : Type} (e : ε) :
    (throw e : Except ε α) = Except.error e := rfl

/-- `pure` on `Except` is `Except.ok`. -/
theorem pure_eq_ok {ε α : Type} (a : α) :
    (pure a : Except ε α) = Except.ok a := rfl

/-- `checked_sub` on `Uint64`/`Uint128`: underflow error when the
subtrahend is larger. -/
def checked_sub (a b : Nat) : Except StdErr Nat :=
  if b ≤ a then .ok (a - b) else .error .underflow

/-- `Uint64::checked_add`. -/
def checked_add_u64 (a b : Nat) : Except StdErr Nat :=
  if a + b < 2 ^ 64 then .ok (a + b) else .error .overflow

/-- `Uint64::checked_mul`. -/
def checked_mul_u64 (a b : Nat) : Except StdErr Nat :=
  if a * b < 2 ^ 64 then .ok (a * b) else .error .overflow

/-- `Uint128::checked_mul`. -/
def checked_mul_u128 (a b : Nat) : Except StdErr Nat :=
  if a * b < 2 ^ 128 then .ok (a * b) else .error .overflow

/-- `Uint128::checked_add`. -/
def checked_add_u128 (a b : Nat) : Except StdErr Nat :=
  if a + b < 2 ^ 128 then .ok (a + b) else .error .overflow

/-- `checked_div`: only fails on a zero divisor, quotient floors. -/
def checked_div (a b : Nat) : Except StdErr Nat :=
  if b = 0 then .error .divideByZero else .ok (a / b)

/-! ## Decimal fixed-point (cosmwasm_std::Decimal, 18 fractional digits) -/

/-- `Decimal::DECIMAL_FRACTIONAL = 10^18`; a `Decimal` is embedded as its
atomics (numerator over this denominator). -/
def DECIMAL_FRACTIONAL : Nat := 1000000000000000000

/-- `Decimal::from_ratio` (callers in the contract only use it with a
nonzero denominator). -/
def from_ratio (num denom : Nat) : Nat :=
  num * DECIMAL_FRACTIONAL / denom

/-- The `Uint128 * Decimal` product (`multiply_ratio` against
`DECIMAL_FRACTIONAL`), flooring. -/
def mul_dec (amount dec : Nat) : Nat :=
  amount * dec / DECIMAL_FRACTIONAL

/-! ## Reward schedule -/

/-- `const BONUS_MULTIPLIER: u64 = 10`. -/
def BONUS_MULTIPLIER : Nat := 10

/-- `get_multiplier` from `contract.rs`: reward multiplier over the
`[from_block, to_block]` range given the bonus cutoff, with `Uint64`
checked arithmetic. -/
def get_multiplier (from_block to_block bonus_end_block : Nat) :
    Except StdErr Nat :=
  if to_block ≤ bonus_end_block then do
    let d ← checked_sub to_block from_block
    checked_mul_u64 d BONUS_MULTIPLIER
  else if bonus_end_block ≤ from_block then
    checked_sub to_block from_block
  else do
    let d ← checked_sub bonus_end_block from_block
    let w ← checked_mul_u64 d BONUS_MULTIPLIER
    let e ← checked_sub to_block bonus_end_block
    checked_add_u64 w e

/-! ## Data model (`state.rs` structures) -/

/-- `Config`: the singleton configuration item. -/
structure Config where
  astro_token : Nat
  dev_addr : Nat
  bonus_end_block : Nat
  tokens_per_block : Nat
  total_alloc_point : Nat
  owner : Nat
  start_block : Nat
  allowed_reward_proxies : List Nat
  vesting_contract : Nat
deriving DecidableEq

/-- `PoolInfo`: per-LP-token pool accrual state. -/
structure PoolInfo where
  alloc_point : Nat
  last_reward_block : Nat
  acc_per_share : Nat
  reward_proxy : Option Nat
  acc_per_share_on_proxy : Nat
  proxy_reward_balance_before_update : Nat
deriving DecidableEq

/-- `UserInfo`: per-(pool, account) stake and reward-debt state. -/
structure UserInfo where
  amount : Nat
  reward_debt : Nat
  reward_debt_proxy : Nat
deriving DecidableEq

/-- `ExecuteOnReply` (`TMP_USER_ACTION` payload): the deferred operation. -/
inductive ExecuteOnReply where
  | MassUpdatePools
  | UpdatePool (lp_token : Nat)
  | Deposit (lp_token account amount : Nat)
  | Withdraw (lp_token account amount : Nat)
deriving DecidableEq

/-- `ContractError` (`error.rs`), plus `NotFound` for a failing storage
`load` of a missing key (a `StdError` in cosmwasm) and `Std` for
propagated arithmetic/generic errors. -/
inductive ContractError where
  | Unauthorized
  | TokenPoolAlreadyExists
  | RewardProxyNotAllowed
  | BalanceTooSmall
  | NotFound
  | Std (e : StdErr)
deriving DecidableEq

/-- Responses of the external queries the contract performs: the reward
proxy's `Deposit` and `Reward` queries (per proxy address), the contract's
balance in an LP cw20 (per LP token address), and the contract's balance in
the ASTRO reward token. -/
structure ExtState where
  proxy_lp_supply : Nat → Nat
  proxy_reward : Nat → Nat
  lp_balance : Nat → Nat
  astro_balance : Nat

/-- The outgoing `SubMsg`s the contract emits. -/
inductive OutMsg where
  /-- `ProxyExecuteMsg::SendRewards { account, amount }` sent to `proxy`. -/
  | proxySendRewards (proxy account amount : Nat)
  /-- cw20 `Transfer` on the ASTRO token (always capped, see
  `safe_reward_transfer_message`). -/
  | astroTransfer (recipient amount : Nat)
  /-- `ProxyExecuteMsg::UpdateRewards {}` sent to `proxy`. -/
  | proxyUpdateRewards (proxy : Nat)
  /-- `VestingExecuteMsg::Claim {}` sent to the vesting contract
  (reply-on-success, id 0). -/
  | vestingClaim (vesting_contract : Nat)
  /-- cw20 `SendFrom` moving `amount` LP from `owner` into `proxy` with the
  proxy deposit hook. -/
  | lpSendFromToProxy (lp_token owner proxy amount : Nat)
  /-- cw20 `TransferFrom` moving `amount` LP from `owner` to the contract. -/
  | lpTransferFrom (lp_token owner amount : Nat)
  /-- cw20 `Transfer` of `amount` LP to `recipient`. -/
  | lpTransfer (lp_token recipient amount : Nat)
  /-- `ProxyExecuteMsg::Withdraw { account, amount }` sent to `proxy`. -/
  | proxyWithdraw (proxy account amount : Nat)
  /-- `ProxyExecuteMsg::EmergencyWithdraw { account, amount }`. -/
  | proxyEmergencyWithdraw (proxy account amount : Nat)
deriving DecidableEq

/-- LP-token custody messages (used to state that an operation emits no
LP-token movement). -/
def is_lp_token_msg : OutMsg → Bool
  | OutMsg.lpSendFromToProxy _ _ _ _ => true
  | OutMsg.lpTransferFrom _ _ _ => true
  | OutMsg.lpTransfer _ _ _ => true
  | OutMsg.proxyWithdraw _ _ _ => true
  | OutMsg.proxyEmergencyWithdraw _ _ _ => true
  | _ => false

/-! ## Storage maps as association lists -/

/-- `POOL_INFO` storage contents: LP-token address to pool state. -/
abbrev PoolMap : Type := List (Nat × PoolInfo)

/-- `USER_INFO` storage contents: the keyed store of user positions
((LP-token, account) to user state), embedded as a key-indexed partial
map — it is only ever read, written and removed at a single key, never
iterated. -/
abbrev UserMap : Type := Nat → Nat → Option UserInfo

/-- `POOL_INFO.load`. -/
def lookupPool (pools : PoolMap) (lp_token : Nat) : Option PoolInfo :=
  (pools.find? (fun kv => kv.1 == lp_token)).map (fun kv => kv.2)

/-- Replace every entry of key `lp_token` (the maps hold each key once). -/
def replacePool (pools : PoolMap) (lp_token : Nat) (p : PoolInfo) : PoolMap :=
  pools.map (fun kv => if kv.1 == lp_token then (lp_token, p) else kv)

/-- `POOL_INFO.save`: update in place, or insert when absent. -/
def savePool (pools : PoolMap) (lp_token : Nat) (p : PoolInfo) : PoolMap :=
  if (lookupPool pools lp_token).isSome then replacePool pools lp_token p
  else pools ++ [(lp_token, p)]

/-- `USER_INFO.load`. -/
def lookupUser (users : UserMap) (lp_token account : Nat) : Option UserInfo :=
  users lp_token account

/-- `USER_INFO.save`. -/
def saveUser (users : UserMap) (lp_token account : Nat) (u : UserInfo) :
    UserMap :=
  fun l a => if l = lp_token ∧ a = account then some u else users l a

/-- `USER_INFO.remove`. -/
def removeUser (users : UserMap) (lp_token account : Nat) : UserMap :=
  fun l a => if l = lp_token ∧ a = account then none else users l a

/-- Turn a storage `load` of a required key into a contract error. -/
def ofOption {α : Type} (o : Option α) (e : ContractError) :
    Except ContractError α :=
  match o with
  | some a => .ok a
  | none => .error e

/-- Propagate a `StdResult` error into a `ContractError` (the `?` operator
through `From<StdError> for ContractError`). -/
def liftStd {α : Type} : Except StdErr α → Except ContractError α
  | .ok a => .ok a
  | .error e => .error (.Std e)

/-! ## Pool accrual engine (`update_pool_rewards` and helpers) -/

/-- `calculate_rewards`: emission owed to a pool since its last settled
block, `multiplier * tokens_per_block * alloc_point / total_alloc_point`
with `Uint128` checked arithmetic. -/
def calculate_rewards (height : Nat) (pool : PoolInfo) (cfg : Config) :
    Except StdErr Nat := do
  let m ← get_multiplier pool.last_reward_block height cfg.bonus_end_block
  let r1 ← checked_mul_u128 m cfg.tokens_per_block
  let r2 ← checked_mul_u128 r1 pool.alloc_point
  checked_div r2 cfg.total_alloc_point

/-- `safe_reward_transfer_message`: an ASTRO cw20 `Transfer` of
`min(amount, contract's ASTRO balance)`. -/
def safe_reward_transfer_message (ext : ExtState) (recipient amount : Nat) :
    OutMsg :=
  OutMsg.astroTransfer recipient (min amount ext.astro_balance)

/-- The proxied track of `update_pool_rewards` (`Some(proxy)` arm of the
match): query proxy LP deposit and cumulative reward; when the proxied LP
supply is nonzero, split the reward delta 10% to dev (emitting
`SendRewards` to the dev address via the proxy) and add the net delta per
share to `acc_per_share_on_proxy`.  Returns the LP supply, the updated
pool and the emitted messages. -/
def accrue_proxy_track (ext : ExtState) (proxy : Nat) (pool : PoolInfo)
    (cfg : Config) : Except StdErr (Nat × PoolInfo × List OutMsg) :=
  let lp_supply := ext.proxy_lp_supply proxy
  let reward_amount := ext.proxy_reward proxy
  if lp_supply ≠ 0 then do
    let delta ← checked_sub reward_amount pool.proxy_reward_balance_before_update
    let dev_token_rewards ← checked_div delta 10
    let token_rewards ← checked_sub delta dev_token_rewards
    .ok (lp_supply,
      { pool with acc_per_share_on_proxy :=
          pool.acc_per_share_on_proxy + from_ratio token_rewards lp_supply },
      [OutMsg.proxySendRewards proxy cfg.dev_addr dev_token_rewards])
  else .ok (lp_supply, pool, [])

/-- The direct track of `update_pool_rewards` (the block guarded by
`env.block.height > pool.last_reward_block`): compute the pool's emission,
emit the capped 10% dev cut, add the full emission per share to
`acc_per_share`, and advance `last_reward_block` to the current height
even when the supply is zero. -/
def accrue_direct_track (ext : ExtState) (height lp_supply : Nat)
    (pool : PoolInfo) (cfg : Config) :
    Except StdErr (PoolInfo × List OutMsg) :=
  if pool.last_reward_block < height then
    if lp_supply ≠ 0 then do
      let token_rewards ← calculate_rewards height pool cfg
      let dev_token_rewards ← checked_div token_rewards 10
      .ok ({ pool with
              acc_per_share :=
                pool.acc_per_share + from_ratio token_rewards lp_supply,
              last_reward_block := height },
           [safe_reward_transfer_message ext cfg.dev_addr dev_token_rewards])
    else .ok ({ pool with last_reward_block := height }, [])
  else .ok (pool, [])

/-- `update_pool_rewards`: both accrual tracks in source order.  For a
proxied pool the LP supply is the proxy's reported deposit; for a direct
pool it is the contract's balance in the LP cw20. -/
def update_pool_rewards (ext : ExtState) (height lp_token : Nat)
    (pool : PoolInfo) (cfg : Config) :
    Except StdErr (PoolInfo × List OutMsg) := do
  let step ←
    match pool.reward_proxy with
    | some proxy => accrue_proxy_track ext proxy pool cfg
    | none => .ok (ext.lp_balance lp_token, pool, ([] : List OutMsg))
  let (pool1, messages1) ← accrue_direct_track ext height step.1 step.2.1 cfg
  .ok (pool1, step.2.2 ++ messages1)

/-! ## Settlement orchestrator -/

/-- The per-pool snapshot step of `update_rewards_and_execute`: for a
proxied pool, store the proxy's current cumulative reward balance and emit
`UpdateRewards` to the proxy; direct pools are untouched. -/
def snapshot_pool (ext : ExtState) (kv : Nat × PoolInfo) :
    (Nat × PoolInfo) × List OutMsg :=
  match kv.2.reward_proxy with
  | some proxy =>
      ((kv.1,
        { kv.2 with proxy_reward_balance_before_update := ext.proxy_reward proxy }),
       [OutMsg.proxyUpdateRewards proxy])
  | none => (kv, [])

/-- `update_rewards_and_execute`: record the deferred intent in
`TMP_USER_ACTION` (failing fatally when one is already recorded — the
`Item.update` closure returns `Err("Repeated reply definition!")`, which
aborts the action and commits nothing), snapshot the proxy reward balance
of the pool(s) in scope, and emit the proxy `UpdateRewards` requests plus
the single reply-tracked vesting `Claim`.  Returns the new intent slot,
the new `POOL_INFO` contents and the emitted messages. -/
def update_rewards_and_execute (ext : ExtState) (cfg : Config)
    (intent : Option ExecuteOnReply) (pools : PoolMap)
    (only_lp_token : Option Nat) (on_reply : ExecuteOnReply) :
    Except ContractError (Option ExecuteOnReply × PoolMap × List OutMsg) := do
  let intent1 ←
    match intent with
    | some _ =>
        (.error (.Std (.generic "Repeated reply definition!")) :
          Except ContractError (Option ExecuteOnReply))
    | none => .ok (some on_reply)
  let step ←
    match only_lp_token with
    | some lp_token => do
        let pool ← ofOption (lookupPool pools lp_token) ContractError.NotFound
        match pool.reward_proxy with
        | some proxy =>
            .ok (savePool pools lp_token
                  { pool with
                    proxy_reward_balance_before_update := ext.proxy_reward proxy },
                 [OutMsg.proxyUpdateRewards proxy])
        | none => .ok (pools, ([] : List OutMsg))
    | none =>
        let snapped := pools.map (snapshot_pool ext)
        .ok (snapped.map (fun s => s.1), (snapped.map (fun s => s.2)).flatten)
  .ok (intent1, step.1, step.2 ++ [OutMsg.vestingClaim cfg.vesting_contract])

/-- One complete settlement cycle for a single pool, as the contract runs
it for a `Deposit`/`Withdraw`/`UpdatePool` action: the snapshot phase of
`update_rewards_and_execute` (which records the proxy reward balance seen
then, `ext_snap`), followed — after the vesting-claim acknowledgment — by
`update_pool_rewards`, whose queries see `ext_upd`. -/
def settle_pool_cycle (ext_snap ext_upd : ExtState) (height lp_token : Nat)
    (pool : PoolInfo) (cfg : Config) :
    Except StdErr (PoolInfo × List OutMsg) :=
  let pool1 :=
    match pool.reward_proxy with
    | some proxy =>
        { pool with proxy_reward_balance_before_update := ext_snap.proxy_reward proxy }
    | none => pool
  update_pool_rewards ext_upd height lp_token pool1 cfg

/-! ## Admin operations -/

/-- `add`: register a new pool.  Owner-only; rejects an already-registered
LP token and a proxy outside the allow-list; adds the pool's weight to
`total_alloc_point`; the new pool starts settled at
`max(start_block, current height)`.  With `with_update` it then runs the
deferred-mass-update scheduling (`update_rewards_and_execute`). -/
def add (ext : ExtState) (height sender lp_token alloc_point : Nat)
    (with_update : Bool) (reward_proxy : Option Nat) (cfg : Config)
    (intent : Option ExecuteOnReply) (pools : PoolMap) :
    Except ContractError
      (Config × Option ExecuteOnReply × PoolMap × List OutMsg) := do
  if sender ≠ cfg.owner then throw ContractError.Unauthorized
  if (lookupPool pools lp_token).isSome then
    throw ContractError.TokenPoolAlreadyExists
  match reward_proxy with
  | some proxy =>
      if proxy ∈ cfg.allowed_reward_proxies then pure ()
      else throw ContractError.RewardProxyNotAllowed
  | none => pure ()
  let total ← liftStd (checked_add_u64 cfg.total_alloc_point alloc_point)
  let pool_info : PoolInfo :=
    { alloc_point := alloc_point,
      last_reward_block := max cfg.start_block height,
      acc_per_share := 0,
      reward_proxy := reward_proxy,
      acc_per_share_on_proxy := 0,
      proxy_reward_balance_before_update := 0 }
  let cfg1 := { cfg with total_alloc_point := total }
  let pools1 := savePool pools lp_token pool_info
  if with_update then do
    let r ← update_rewards_and_execute ext cfg1 intent pools1 none
      ExecuteOnReply.MassUpdatePools
    .ok (cfg1, r.1, r.2.1, r.2.2)
  else
    .ok (cfg1, intent, pools1, [])

/-- `set`: change a pool's allocation weight.  Owner-only; replaces the
pool's weight inside `total_alloc_point` (`total - old + new` with checked
arithmetic).  With `with_update` it then schedules the deferred
single-pool update. -/
def set (ext : ExtState) (sender lp_token alloc_point : Nat)
    (with_update : Bool) (cfg : Config) (intent : Option ExecuteOnReply)
    (pools : PoolMap) :
    Except ContractError
      (Config × Option ExecuteOnReply × PoolMap × List OutMsg) := do
  if sender ≠ cfg.owner then throw ContractError.Unauthorized
  let pool_info ← ofOption (lookupPool pools lp_token) ContractError.NotFound
  let t1 ← liftStd (checked_sub cfg.total_alloc_point pool_info.alloc_point)
  let total ← liftStd (checked_add_u64 t1 alloc_point)
  let pool1 := { pool_info with alloc_point := alloc_point }
  let cfg1 := { cfg with total_alloc_point := total }
  let pools1 := savePool pools lp_token pool1
  if with_update then do
    let r ← update_rewards_and_execute ext cfg1 intent pools1 (some lp_token)
      (ExecuteOnReply.UpdatePool lp_token)
    .ok (cfg1, r.1, r.2.1, r.2.2)
  else
    .ok (cfg1, intent, pools1, [])

/-- `set_dev`: change the dev address; only the current dev may call. -/
def set_dev (sender dev_address : Nat) (cfg : Config) :
    Except ContractError Config :=
  if sender ≠ cfg.dev_addr then .error ContractError.Unauthorized
  else .ok { cfg with dev_addr := dev_address }

/-- `set_allowed_reward_proxies`: replace the proxy allow-list.  The
source function takes no `MessageInfo` and performs no caller check. -/
def set_allowed_reward_proxies (proxies : List Nat) (cfg : Config) :
    Except ContractError Config :=
  .ok { cfg with allowed_reward_proxies := proxies }

/-- The `ExecuteMsg::SetAllowedRewardProxies` dispatch arm in `execute`:
the sender in `info` is dropped on the way to
`set_allowed_reward_proxies`. -/
def execute_set_allowed_reward_proxies (_sender : Nat) (proxies : List Nat)
    (cfg : Config) : Except ContractError Config :=
  set_allowed_reward_proxies proxies cfg

/-! ## User position ledger -/

/-- `deposit` (run in the `reply` resumption): settle the pool, pay both
pending-reward tracks (capped ASTRO transfer; proxy `SendRewards`) when
the user already has a stake, move `amount` LP into custody when nonzero,
then increase the stake and reset the reward debts against the updated
accumulators (only when an accumulator is nonzero). -/
def deposit (ext : ExtState) (height lp_token account amount : Nat)
    (cfg : Config) (pools : PoolMap) (users : UserMap) :
    Except ContractError (PoolMap × UserMap × List OutMsg) := do
  let user := (lookupUser users lp_token account).getD
    { amount := 0, reward_debt := 0, reward_debt_proxy := 0 }
  let pool ← ofOption (lookupPool pools lp_token) ContractError.NotFound
  let upd ← liftStd (update_pool_rewards ext height lp_token pool cfg)
  let pool1 := upd.1
  let messages1 := upd.2
  let messages2 ←
    if user.amount ≠ 0 then do
      let pending ← liftStd
        (checked_sub (mul_dec user.amount pool1.acc_per_share) user.reward_debt)
      let m1 := if pending ≠ 0 then
          [safe_reward_transfer_message ext account pending] else []
      match pool1.reward_proxy with
      | some proxy => do
          let pending_on_proxy ← liftStd
            (checked_sub (mul_dec user.amount pool1.acc_per_share_on_proxy)
              user.reward_debt_proxy)
          pure (m1 ++ (if pending_on_proxy ≠ 0 then
            [OutMsg.proxySendRewards proxy account pending_on_proxy] else []))
      | none => pure m1
    else pure ([] : List OutMsg)
  let messages3 :=
    if amount ≠ 0 then
      match pool1.reward_proxy with
      | some proxy => [OutMsg.lpSendFromToProxy lp_token account proxy amount]
      | none => [OutMsg.lpTransferFrom lp_token account amount]
    else []
  let amount1 ← liftStd (checked_add_u128 user.amount amount)
  let user1 := { user with amount := amount1 }
  let user2 :=
    if pool1.acc_per_share ≠ 0 then
      { user1 with reward_debt := mul_dec amount1 pool1.acc_per_share }
    else user1
  let user3 :=
    if pool1.acc_per_share_on_proxy ≠ 0 then
      { user2 with reward_debt_proxy := mul_dec amount1 pool1.acc_per_share_on_proxy }
    else user2
  .ok (savePool pools lp_token pool1,
       saveUser users lp_token account user3,
       messages1 ++ messages2 ++ messages3)

/-- `withdraw` (run in the `reply` resumption): reject
`amount > user.amount` before touching anything, settle the pool, pay both
pending-reward tracks, move `amount` LP back to the user (proxy
`Withdraw` or direct cw20 `Transfer`), then decrease the stake and reset
the reward debts. -/
def withdraw (ext : ExtState) (height lp_token account amount : Nat)
    (cfg : Config) (pools : PoolMap) (users : UserMap) :
    Except ContractError (PoolMap × UserMap × List OutMsg) := do
  let user ← ofOption (lookupUser users lp_token account) ContractError.NotFound
  if user.amount < amount then throw ContractError.BalanceTooSmall
  let pool ← ofOption (lookupPool pools lp_token) ContractError.NotFound
  let upd ← liftStd (update_pool_rewards ext height lp_token pool cfg)
  let pool1 := upd.1
  let messages1 := upd.2
  let pending ← liftStd
    (checked_sub (mul_dec user.amount pool1.acc_per_share) user.reward_debt)
  let messages2 := if pending ≠ 0 then
      [safe_reward_transfer_message ext account pending] else []
  let messages3 ←
    match pool1.reward_proxy with
    | some proxy => do
        let pending_on_proxy ← liftStd
          (checked_sub (mul_dec user.amount pool1.acc_per_share_on_proxy)
            user.reward_debt_proxy)
        pure (if pending_on_proxy ≠ 0 then
          [OutMsg.proxySendRewards proxy account pending_on_proxy] else [])
    | none => pure ([] : List OutMsg)
  let messages4 :=
    if amount ≠ 0 then
      match pool1.reward_proxy with
      | some proxy => [OutMsg.proxyWithdraw proxy account amount]
      | none => [OutMsg.lpTransfer lp_token account amount]
    else []
  let amount1 ← liftStd (checked_sub user.amount amount)
  let user1 := { user with amount := amount1 }
  let user2 :=
    if pool1.acc_per_share ≠ 0 then
      { user1 with reward_debt := mul_dec amount1 pool1.acc_per_share }
    else user1
  let user3 :=
    if pool1.acc_per_share_on_proxy ≠ 0 then
      { user2 with reward_debt_proxy := mul_dec amount1 pool1.acc_per_share_on_proxy }
    else user2
  .ok (savePool pools lp_token pool1,
       saveUser users lp_token account user3,
       messages1 ++ messages2 ++ messages3 ++ messages4)

/-- `emergency_withdraw`: synchronous (no intent, no settlement); return
the user's whole stake (proxy `EmergencyWithdraw` or direct cw20
`Transfer`) and remove the `USER_INFO` entry. -/
def emergency_withdraw (lp_token sender : Nat) (pools : PoolMap)
    (users : UserMap) : Except ContractError (UserMap × List OutMsg) := do
  let pool ← ofOption (lookupPool pools lp_token) ContractError.NotFound
  let user ← ofOption (lookupUser users lp_token sender) ContractError.NotFound
  let msg :=
    match pool.reward_proxy with
    | some proxy => OutMsg.proxyEmergencyWithdraw proxy sender user.amount
    | none => OutMsg.lpTransfer lp_token sender user.amount
  .ok (removeUser users lp_token sender, [msg])

/-! ## Queries -/

/-- The `QueryMsg::GetMultiplier { from, to }` arm of `query`: the input
`from` is clamped to at least `cfg.start_block` before
`get_multiplier` runs. -/
def query_get_multiplier (cfg : Config) (from_block to_block : Nat) :
    Except StdErr Nat :=
  get_multiplier (max from_block cfg.start_block) to_block cfg.bonus_end_block

/-! ## Concrete states used by witnesses and counterexamples -/

/-- A sample configuration: owner `1`, dev `2`, proxy allow-list `[5]`,
emission `1000` per block from block `0`, bonus until block `100`. -/
def cfgB : Config :=
  { astro_token := 100, dev_addr := 2, bonus_end_block := 100,
    tokens_per_block := 1000, total_alloc_point := 100, owner := 1,
    start_block := 0, allowed_reward_proxies := [5], vesting_contract := 9 }

/-- A sample direct-custody pool with the full allocation weight. -/
def poolB : PoolInfo :=
  { alloc_point := 100, last_reward_block := 0, acc_per_share := 0,
    reward_proxy := none, acc_per_share_on_proxy := 0,
    proxy_reward_balance_before_update := 0 }

/-- Sample external query responses: direct LP supply `1`, ASTRO treasury
`1000000`. -/
def extB : ExtState :=
  { proxy_lp_supply := fun _ => 0, proxy_reward := fun _ => 0,
    lp_balance := fun _ => 1, astro_balance := 1000000 }

/-! ## Claim theorems -/

/-- C4 (counterexample): at `from = 0`, `to = bonus_end = 2^64 - 1` we have
`from ≤ to` and `to ≤ bonus_end`, yet `get_multiplier` does not return
`(to - from) * BONUS_MULTIPLIER`: the `Uint64` checked multiplication
overflows. -/
theorem get_multiplier_overflow_cex :
    get_multiplier 0 (2 ^ 64 - 1) (2 ^ 64 - 1) = .error StdErr.overflow ∧
    get_multiplier 0 (2 ^ 64 - 1) (2 ^ 64 - 1) ≠
      .ok (((2 ^ 64 - 1) - 0) * BONUS_MULTIPLIER) := by
  constructor
  · decide
  · decide

/-- C4 (amended): for `from ≤ to` the three cases of the reward multiplier
hold whenever the weighted result fits in `u64` (the fully-after case
needs no bound as no multiplication occurs), and for every input with
`from > to` the function fails with an arithmetic-underflow error. -/
theorem get_multiplier_cases (from_block to_block bonus_end_block : Nat) :
    (from_block ≤ to_block → to_block ≤ bonus_end_block →
      (to_block - from_block) * BONUS_MULTIPLIER < 2 ^ 64 →
      get_multiplier from_block to_block bonus_end_block =
        .ok ((to_block - from_block) * BONUS_MULTIPLIER)) ∧
    (from_block ≤ to_block → bonus_end_block ≤ from_block →
      get_multiplier from_block to_block bonus_end_block =
        .ok (to_block - from_block)) ∧
    (from_block < bonus_end_block → bonus_end_block < to_block →
      (bonus_end_block - from_block) * BONUS_MULTIPLIER +
        (to_block - bonus_end_block) < 2 ^ 64 →
      get_multiplier from_block to_block bonus_end_block =
        .ok ((bonus_end_block - from_block) * BONUS_MULTIPLIER +
          (to_block - bonus_end_block))) ∧
    (to_block < from_block →
      get_multiplier from_block to_block bonus_end_block =
        .error StdErr.underflow) := by
  refine ⟨?_, ?_, ?_, ?_⟩
  · intro h1 h2 h3
    have h3' : (to_block - from_block) * 10 < 18446744073709551616 := by
      simpa [BONUS_MULTIPLIER] using h3
    simp [get_multiplier, checked_sub, checked_mul_u64, BONUS_MULTIPLIER,
      ok_bind, error_bind, h1, h2, h3']
  · intro h1 h2
    by_cases hq : to_block ≤ bonus_end_block
    · have hfe : from_block = to_block := le_antisymm h1 (le_trans hq h2)
      subst hfe
      simp [get_multiplier, checked_sub, checked_mul_u64, BONUS_MULTIPLIER,
        ok_bind, error_bind, hq]
    · simp [get_multiplier, checked_sub, ok_bind, error_bind, hq, h1, h2]
  · intro h1 h2 h3
    have hq : ¬ to_block ≤ bonus_end_block := not_le.mpr h2
    have hq2 : ¬ bonus_end_block ≤ from_block := not_le.mpr h1
    have hm : (bonus_end_block - from_block) * 10 < 18446744073709551616 := by
      have : BONUS_MULTIPLIER = 10 := rfl
      rw [this] at h3
      omega
    have h3' : (bonus_end_block - from_block) * 10 +
        (to_block - bonus_end_block) < 18446744073709551616 := by
      have : BONUS_MULTIPLIER = 10 := rfl
      rw [this] at h3
      omega
    simp [get_multiplier, checked_sub, checked_mul_u64, checked_add_u64,
      BONUS_MULTIPLIER, ok_bind, error_bind, hq, hq2, le_of_lt h1,
      le_of_lt h2, hm, h3']
  · intro h
    by_cases hq : to_block ≤ bonus_end_block
    · simp [get_multiplier, checked_sub, ok_bind, error_bind, hq,
        not_le.mpr h]
    · have hq2 : bonus_end_block ≤ from_block := by omega
      simp [get_multiplier, checked_sub, ok_bind, error_bind, hq, hq2,
        not_le.mpr h]

/-- C4 (witness): the fully-before-cutoff case at `from = 0`, `to = 5`,
`bonus_end = 10`. -/
theorem get_multiplier_cases_witness :
    get_multiplier 0 5 10 = .ok ((5 - 0) * BONUS_MULTIPLIER) :=
  (get_multiplier_cases 0 5 10).1 (by decide) (by decide) (by decide)

/-- C10: the `GetMultiplier` query clamps `from` to at least
`cfg.start_block` itself before running `get_multiplier`, and therefore
fails with an arithmetic-underflow error whenever
`to < max(from, cfg.start_block)`. -/
theorem query_get_multiplier_spec (cfg : Config) (from_block to_block : Nat) :
    query_get_multiplier cfg from_block to_block =
      get_multiplier (max from_block cfg.start_block) to_block
        cfg.bonus_end_block ∧
    (to_block < max from_block cfg.start_block →
      query_get_multiplier cfg from_block to_block =
        .error StdErr.underflow) := by
  refine ⟨rfl, ?_⟩
  intro h
  by_cases hq : to_block ≤ cfg.bonus_end_block
  · simp [query_get_multiplier, get_multiplier, checked_sub, ok_bind,
      error_bind, hq, not_le.mpr h]
  · have hq2 : cfg.bonus_end_block ≤ max from_block cfg.start_block := by
      omega
    simp [query_get_multiplier, get_multiplier, checked_sub, ok_bind,
      error_bind, hq, hq2, not_le.mpr h]

/-- C10 (witness): with `start_block = 0`, querying `from = 8`, `to = 3`
underflows, and the query agrees with the clamped `get_multiplier`. -/
theorem query_get_multiplier_spec_witness :
    query_get_multiplier cfgB 8 3 = .error StdErr.underflow :=
  (query_get_multiplier_spec cfgB 8 3).2 (by decide)

/-- C2: `execute`'s `SetAllowedRewardProxies` arm drops the caller and
`set_allowed_reward_proxies` performs no authorization check, so a caller
that is neither the owner nor the dev replaces the proxy allow-list
successfully — unlike `add`, `set` and `set_dev`, which all reject that
caller with `Unauthorized`. -/
theorem set_allowed_reward_proxies_no_auth :
    execute_set_allowed_reward_proxies 99 [7] cfgB =
      .ok { cfgB with allowed_reward_proxies := [7] } ∧
    99 ≠ cfgB.owner ∧ 99 ≠ cfgB.dev_addr ∧
    cfgB.allowed_reward_proxies ≠ [7] ∧
    add extB 0 99 3 50 false none cfgB none [] =
      .error ContractError.Unauthorized ∧
    set extB 99 3 50 false cfgB none [] =
      .error ContractError.Unauthorized ∧
    set_dev 99 4 cfgB = .error ContractError.Unauthorized := by
  refine ⟨rfl, by decide, by decide, by decide, by decide, by decide,
    by decide⟩

/-- C7: starting any deferred action while an intent is already recorded
fails fatally with the `"Repeated reply definition!"` error — the
`TMP_USER_ACTION.update` closure rejects it, the whole action aborts and
(errors committing nothing in cosmwasm) the stored intent is unchanged. -/
theorem repeated_intent_fails (ext : ExtState) (cfg : Config)
    (prior on_reply : ExecuteOnReply) (pools : PoolMap)
    (only_lp_token : Option Nat) :
    update_rewards_and_execute ext cfg (some prior) pools only_lp_token
      on_reply =
      .error (ContractError.Std (StdErr.generic "Repeated reply definition!")) :=
  rfl

/-- C6: a withdraw request larger than the stored stake fails with
`BalanceTooSmall` (the spec's `InsufficientBalance`); the guard runs
before any state is written, and an error commits nothing. -/
theorem withdraw_insufficient_balance (ext : ExtState)
    (height lp_token account amount : Nat) (cfg : Config) (pools : PoolMap)
    (users : UserMap) (user : UserInfo)
    (hu : lookupUser users lp_token account = some user)
    (hlt : user.amount < amount) :
    withdraw ext height lp_token account amount cfg pools users =
      .error ContractError.BalanceTooSmall := by
  simp only [withdraw, ofOption, hu, ok_bind, hlt, if_true, throw_eq,
    error_bind]

/-- Sample ledger: account `4` holds a stake of `5` in pool `3`. -/
def usersB : UserMap := fun l a =>
  if l = 3 ∧ a = 4 then
    some { amount := 5, reward_debt := 0, reward_debt_proxy := 0 }
  else none

/-- C6 (witness): withdrawing `7` from the stake of `5` fails. -/
theorem withdraw_insufficient_balance_witness :
    withdraw extB 10 3 4 7 cfgB [] usersB =
      .error ContractError.BalanceTooSmall :=
  withdraw_insufficient_balance extB 10 3 4 7 cfgB [] usersB
    { amount := 5, reward_debt := 0, reward_debt_proxy := 0 } rfl (by decide)

/-- After `removeUser`, the `(lp_token, account)` ledger entry is gone. -/
theorem lookupUser_removeUser (users : UserMap) (lp_token account : Nat) :
    lookupUser (removeUser users lp_token account) lp_token account = none := by
  simp [lookupUser, removeUser]

/-- C8: for an existing position in a registered pool,
`emergency_withdraw` succeeds with exactly one outgoing message — the
user's full current stake sent back through the proxy
(`EmergencyWithdraw`) for proxied pools or a direct LP cw20 `Transfer`
otherwise — performs no reward settlement or pending-reward computation
(no reward transfer is emitted, `POOL_INFO` is not touched), and deletes
the ledger entry outright. -/
theorem emergency_withdraw_spec (lp_token sender : Nat) (pools : PoolMap)
    (users : UserMap) (pool : PoolInfo) (user : UserInfo)
    (hp : lookupPool pools lp_token = some pool)
    (hu : lookupUser users lp_token sender = some user) :
    emergency_withdraw lp_token sender pools users =
      .ok (removeUser users lp_token sender,
        [match pool.reward_proxy with
         | some proxy => OutMsg.proxyEmergencyWithdraw proxy sender user.amount
         | none => OutMsg.lpTransfer lp_token sender user.amount]) ∧
    lookupUser (removeUser users lp_token sender) lp_token sender = none := by
  constructor
  · simp only [emergency_withdraw, ofOption, hp, hu, ok_bind]
  · exact lookupUser_removeUser users lp_token sender

/-- C8 (witness): account `4` emergency-withdraws its stake of `5` from
the direct pool `3`: one LP `Transfer` of `5` back to `4`, entry gone. -/
theorem emergency_withdraw_spec_witness :
    emergency_withdraw 3 4 [(3, poolB)] usersB =
      .ok (removeUser usersB 3 4,
        [match poolB.reward_proxy with
         | some proxy => OutMsg.proxyEmergencyWithdraw proxy 4 5
         | none => OutMsg.lpTransfer 3 4 5]) ∧
    lookupUser (removeUser usersB 3 4) 3 4 = none :=
  emergency_withdraw_spec 3 4 [(3, poolB)] usersB poolB
    { amount := 5, reward_debt := 0, reward_debt_proxy := 0 } rfl rfl

/-- C1 (counterexample): the spec scenario — `alloc_point = 100`,
`total_alloc_point = 100`, `tokens_per_block = 1000`, 10 elapsed blocks
entirely before the bonus cutoff, direct LP supply 1.  `tokenRewards` is
`100000` and the dev cut `10000` as claimed, but `acc_per_share` grows by
`from_ratio 100000 1` — the full `tokenRewards/supply` — not by
`(tokenRewards - devCut)/supply = from_ratio 90000 1`. -/
theorem direct_accrual_share_cex :
    update_pool_rewards extB 10 3 poolB cfgB =
      .ok ({ poolB with
              acc_per_share := from_ratio 100000 1,
              last_reward_block := 10 },
           [OutMsg.astroTransfer 2 10000]) ∧
    calculate_rewards 10 poolB cfgB = .ok 100000 ∧
    (100000 : Nat) / 10 = 10000 ∧
    from_ratio 100000 1 ≠ from_ratio (100000 - 10000) 1 := by
  exact ⟨by decide, by decide, by decide, by decide⟩

/-- C1 (amended): in a direct-custody settlement with
`height > last_reward_block` and nonzero direct LP supply, the settlement
computes `tokenRewards`, emits a capped transfer of
`devCut = tokenRewards / 10` to the dev address, and increments
`acc_per_share` by `tokenRewards / supply` — the dev cut is an additional
payout and is *not* subtracted from the per-share accrual (unlike the
proxied track). -/
theorem update_pool_rewards_direct_track (ext : ExtState)
    (height lp_token : Nat) (pool : PoolInfo) (cfg : Config) (R : Nat)
    (hproxy : pool.reward_proxy = none)
    (hh : pool.last_reward_block < height)
    (hs : ext.lp_balance lp_token ≠ 0)
    (hr : calculate_rewards height pool cfg = .ok R) :
    update_pool_rewards ext height lp_token pool cfg =
      .ok ({ pool with
              acc_per_share :=
                pool.acc_per_share + from_ratio R (ext.lp_balance lp_token),
              last_reward_block := height },
           [OutMsg.astroTransfer cfg.dev_addr
              (min (R / 10) ext.astro_balance)]) := by
  simp [update_pool_rewards, hproxy, accrue_direct_track, hh, hs, hr,
    checked_div, safe_reward_transfer_message, ok_bind]

/-- C1 (witness): the spec scenario run through the amended statement. -/
theorem update_pool_rewards_direct_track_witness :
    update_pool_rewards extB 10 3 poolB cfgB =
      .ok ({ poolB with
              acc_per_share :=
                poolB.acc_per_share + from_ratio 100000 (extB.lp_balance 3),
              last_reward_block := 10 },
           [OutMsg.astroTransfer cfgB.dev_addr
              (min (100000 / 10) extB.astro_balance)]) :=
  update_pool_rewards_direct_track extB 10 3 poolB cfgB 100000 rfl
    (by decide) (by decide) (by decide)

/-- A successful proxied-track accrual only adds to
`acc_per_share_on_proxy`: the direct-track fields and the reported supply
are fixed by it. -/
theorem accrue_proxy_track_inv (ext : ExtState) (proxy : Nat)
    (pool : PoolInfo) (cfg : Config) (s : Nat) (p : PoolInfo)
    (m : List OutMsg)
    (h : accrue_proxy_track ext proxy pool cfg = .ok (s, p, m)) :
    p.last_reward_block = pool.last_reward_block ∧
    p.reward_proxy = pool.reward_proxy ∧
    p.acc_per_share = pool.acc_per_share ∧
    p.alloc_point = pool.alloc_point ∧
    s = ext.proxy_lp_supply proxy := by
  unfold accrue_proxy_track at h
  by_cases hs : ext.proxy_lp_supply proxy ≠ 0
  · rw [if_pos hs] at h
    cases h1 : checked_sub (ext.proxy_reward proxy)
        pool.proxy_reward_balance_before_update with
    | error e =>
        rw [h1, error_bind] at h
        exact Except.noConfusion h
    | ok delta =>
        rw [h1, ok_bind] at h
        rw [show checked_div delta 10 = Except.ok (delta / 10) from
            by simp [checked_div], ok_bind] at h
        rw [show checked_sub delta (delta / 10) =
              Except.ok (delta - delta / 10) from
            by simp [checked_sub, Nat.div_le_self], ok_bind] at h
        simp only [Except.ok.injEq, Prod.mk.injEq] at h
        obtain ⟨h2, h3, _⟩ := h
        subst h3
        exact ⟨rfl, rfl, rfl, rfl, h2.symm⟩
  · rw [if_neg hs] at h
    simp only [Except.ok.injEq, Prod.mk.injEq] at h
    obtain ⟨h2, h3, _⟩ := h
    subst h3
    exact ⟨rfl, rfl, rfl, rfl, h2.symm⟩

/-- A successful direct-track accrual leaves `last_reward_block` at least
at the settlement height (or untouched and already there), and never
changes the proxied-track fields. -/
theorem accrue_direct_track_inv (ext : ExtState) (height lp_supply : Nat)
    (pool : PoolInfo) (cfg : Config) (p : PoolInfo) (m : List OutMsg)
    (h : accrue_direct_track ext height lp_supply pool cfg = .ok (p, m)) :
    (pool.last_reward_block < height → height ≤ p.last_reward_block) ∧
    (¬ pool.last_reward_block < height → p = pool ∧ m = []) ∧
    p.reward_proxy = pool.reward_proxy ∧
    p.acc_per_share_on_proxy = pool.acc_per_share_on_proxy ∧
    p.proxy_reward_balance_before_update =
      pool.proxy_reward_balance_before_update := by
  unfold accrue_direct_track at h
  by_cases hlt : pool.last_reward_block < height
  · rw [if_pos hlt] at h
    by_cases hs : lp_supply ≠ 0
    · rw [if_pos hs] at h
      cases h1 : calculate_rewards height pool cfg with
      | error e =>
          rw [h1, error_bind] at h
          exact Except.noConfusion h
      | ok R =>
          rw [h1, ok_bind] at h
          rw [show checked_div R 10 = Except.ok (R / 10) from
              by simp [checked_div], ok_bind] at h
          simp only [Except.ok.injEq, Prod.mk.injEq] at h
          obtain ⟨h2, _⟩ := h
          subst h2
          exact ⟨fun _ => le_refl height, fun hc => absurd hlt hc, rfl, rfl,
            rfl⟩
    · rw [if_neg hs] at h
      simp only [Except.ok.injEq, Prod.mk.injEq] at h
      obtain ⟨h2, _⟩ := h
      subst h2
      exact ⟨fun _ => le_refl height, fun hc => absurd hlt hc, rfl, rfl, rfl⟩
  · rw [if_neg hlt] at h
    simp only [Except.ok.injEq, Prod.mk.injEq] at h
    obtain ⟨h2, h3⟩ := h
    subst h2
    exact ⟨fun hc => absurd hc hlt, fun _ => ⟨rfl, h3.symm⟩, rfl, rfl, rfl⟩

/-- A successful `update_pool_rewards` leaves `last_reward_block` at least
at the settlement height and preserves the pool's custody mode. -/
theorem update_pool_rewards_inv (ext : ExtState) (height lp_token : Nat)
    (pool : PoolInfo) (cfg : Config) (p : PoolInfo) (m : List OutMsg)
    (h : update_pool_rewards ext height lp_token pool cfg = .ok (p, m)) :
    height ≤ p.last_reward_block ∧ p.reward_proxy = pool.reward_proxy := by
  unfold update_pool_rewards at h
  cases hp : pool.reward_proxy with
  | none =>
      rw [hp] at h
      simp only [ok_bind] at h
      cases hd : accrue_direct_track ext height (ext.lp_balance lp_token)
          pool cfg with
      | error e =>
          rw [hd, error_bind] at h
          exact Except.noConfusion h
      | ok pr =>
          rw [hd, ok_bind] at h
          obtain ⟨p1, m1⟩ := pr
          simp only [Except.ok.injEq, Prod.mk.injEq] at h
          obtain ⟨h2, _⟩ := h
          subst h2
          obtain ⟨ha, hb, hc, _, _⟩ :=
            accrue_direct_track_inv ext height (ext.lp_balance lp_token)
              pool cfg p1 m1 hd
          refine ⟨?_, hc.trans hp⟩
          · by_cases hlt : pool.last_reward_block < height
            · exact ha hlt
            · rw [(hb hlt).1]
              omega
  | some proxy =>
      rw [hp] at h
      try simp only [] at h
      cases hq : accrue_proxy_track ext proxy pool cfg with
      | error e =>
          rw [hq, error_bind] at h
          exact Except.noConfusion h
      | ok spm =>
          rw [hq, ok_bind] at h
          obtain ⟨s0, p0, m0⟩ := spm
          cases hd : accrue_direct_track ext height s0 p0 cfg with
          | error e =>
              simp only [error_bind] at h
              rw [hd] at h
              exact Except.noConfusion h
          | ok pr =>
              rw [hd, ok_bind] at h
              obtain ⟨p1, m1⟩ := pr
              simp only [Except.ok.injEq, Prod.mk.injEq] at h
              obtain ⟨h2, _⟩ := h
              subst h2
              obtain ⟨ja, jb, jc, _, _⟩ :=
                accrue_proxy_track_inv ext proxy pool cfg s0 p0 m0 hq
              obtain ⟨ha, hb, hc, _, _⟩ :=
                accrue_direct_track_inv ext height s0 p0 cfg p1 m1 hd
              constructor
              · by_cases hlt : p0.last_reward_block < height
                · exact ha hlt
                · rw [(hb hlt).1]
                  omega
              · rw [hc, jb, hp]

/-- C5 (amended): re-running the settlement cycle for a pool at the same
block height (same external readings) leaves `acc_per_share` and
`acc_per_share_on_proxy` unchanged; a direct-custody pool emits no message
at all on the second run, and any dev-cut `SendRewards` a proxied pool
emits on the second run carries amount `0` (the message itself is still
emitted — see the counterexample), with no ASTRO transfer emitted. -/
theorem settle_pool_cycle_idempotent (ext_snap ext_upd ext : ExtState)
    (height lp_token : Nat) (pool pool1 : PoolInfo) (cfg : Config)
    (m1 : List OutMsg)
    (h1 : settle_pool_cycle ext_snap ext_upd height lp_token pool cfg =
      .ok (pool1, m1)) :
    ∃ pool2 m2,
      settle_pool_cycle ext ext height lp_token pool1 cfg =
        .ok (pool2, m2) ∧
      pool2.acc_per_share = pool1.acc_per_share ∧
      pool2.acc_per_share_on_proxy = pool1.acc_per_share_on_proxy ∧
      (pool.reward_proxy = none → m2 = []) ∧
      (∀ proxy account amount,
        OutMsg.proxySendRewards proxy account amount ∈ m2 → amount = 0) ∧
      (∀ recipient amount,
        OutMsg.astroTransfer recipient amount ∈ m2 → False) := by
  unfold settle_pool_cycle at h1
  obtain ⟨hle, hpr⟩ :=
    update_pool_rewards_inv ext_upd height lp_token _ cfg pool1 m1 h1
  have hpr2 : pool1.reward_proxy = pool.reward_proxy := by
    rw [hpr]
    cases hq : pool.reward_proxy with
    | none => exact hq
    | some q => rfl
  have hnl : ¬ pool1.last_reward_block < height := not_lt.mpr hle
  cases hp : pool1.reward_proxy with
  | none =>
      refine ⟨pool1, [], ?_, rfl, rfl, fun _ => rfl, ?_, ?_⟩
      · simp [settle_pool_cycle, hp, update_pool_rewards,
          accrue_direct_track, hnl, ok_bind]
      · intro _ _ _ hm
        simp at hm
      · intro _ _ hm
        simp at hm
  | some proxy =>
      have hnone : pool.reward_proxy = none → False := by
        intro hc
        rw [hc] at hpr2
        rw [hp] at hpr2
        exact Option.noConfusion hpr2
      by_cases hs : ext.proxy_lp_supply proxy = 0
      · refine ⟨{ pool1 with
            proxy_reward_balance_before_update := ext.proxy_reward proxy },
          [], ?_, rfl, rfl, fun hc => (hnone hc).elim, ?_, ?_⟩
        · simp [settle_pool_cycle, hp, update_pool_rewards,
            accrue_proxy_track, accrue_direct_track, hs, hnl, ok_bind]
        · intro _ _ _ hm
          simp at hm
        · intro _ _ hm
          simp at hm
      · refine ⟨{ pool1 with
            proxy_reward_balance_before_update := ext.proxy_reward proxy },
          [OutMsg.proxySendRewards proxy cfg.dev_addr 0], ?_, rfl, rfl,
          fun hc => (hnone hc).elim, ?_, ?_⟩
        · simp [settle_pool_cycle, hp, update_pool_rewards,
            accrue_proxy_track, accrue_direct_track, hs, hnl, checked_sub,
            checked_div, from_ratio, ok_bind]
        · intro proxy' account' amount' hm
          simp only [List.mem_singleton] at hm
          exact (OutMsg.proxySendRewards.inj hm).2.2
        · intro _ _ hm
          simp only [List.mem_singleton] at hm
          exact OutMsg.noConfusion hm

/-- A pool in proxy custody (proxy `5`), settled at block 10. -/
def poolP : PoolInfo :=
  { alloc_point := 100, last_reward_block := 10, acc_per_share := 0,
    reward_proxy := some 5, acc_per_share_on_proxy := 0,
    proxy_reward_balance_before_update := 0 }

/-- Proxy query responses seen at the snapshot phase of the first cycle. -/
def extSnap : ExtState :=
  { proxy_lp_supply := fun _ => 4, proxy_reward := fun _ => 40,
    lp_balance := fun _ => 0, astro_balance := 0 }

/-- Proxy query responses after the proxy refreshed its rewards (and
unchanged from there on). -/
def extUpd : ExtState :=
  { proxy_lp_supply := fun _ => 4, proxy_reward := fun _ => 100,
    lp_balance := fun _ => 0, astro_balance := 0 }

/-- `poolP` after its first settlement cycle: reward delta `60`, dev cut
`6`, net `54` over supply `4`. -/
def poolP1 : PoolInfo :=
  { poolP with
      proxy_reward_balance_before_update := 40,
      acc_per_share_on_proxy := 13500000000000000000 }

/-- `poolP1` after the second settlement cycle: only the snapshot moves. -/
def poolP2 : PoolInfo :=
  { poolP1 with proxy_reward_balance_before_update := 100 }

/-- C5 (counterexample): settling the proxied pool `poolP` twice at block
10 — with no external change for the second run — leaves both
accumulators unchanged, but the second run still emits a dev-cut
`SendRewards` message (of amount `0`), contradicting the claim that no
second dev transfer message is emitted. -/
theorem settle_twice_dev_message_cex :
    settle_pool_cycle extSnap extUpd 10 1 poolP cfgB =
      .ok (poolP1, [OutMsg.proxySendRewards 5 2 6]) ∧
    settle_pool_cycle extUpd extUpd 10 1 poolP1 cfgB =
      .ok (poolP2, [OutMsg.proxySendRewards 5 2 0]) ∧
    poolP2.acc_per_share = poolP1.acc_per_share ∧
    poolP2.acc_per_share_on_proxy = poolP1.acc_per_share_on_proxy := by
  exact ⟨by decide, by decide, by decide, by decide⟩

/-- C5 (witness): the amended statement applied to the first cycle of
`poolP`. -/
theorem settle_pool_cycle_idempotent_witness :
    ∃ pool2 m2,
      settle_pool_cycle extUpd extUpd 10 1 poolP1 cfgB = .ok (pool2, m2) ∧
      pool2.acc_per_share = poolP1.acc_per_share ∧
      pool2.acc_per_share_on_proxy = poolP1.acc_per_share_on_proxy ∧
      (poolP.reward_proxy = none → m2 = []) ∧
      (∀ proxy account amount,
        OutMsg.proxySendRewards proxy account amount ∈ m2 → amount = 0) ∧
      (∀ recipient amount,
        OutMsg.astroTransfer recipient amount ∈ m2 → False) :=
  settle_pool_cycle_idempotent extSnap extUpd extUpd 10 1 poolP poolP1 cfgB
    [OutMsg.proxySendRewards 5 2 6] (by decide)

/-! ## The total-allocation invariant (C3) -/

/-- Sum of the allocation weights over all registered pools. -/
def sum_alloc (pools : PoolMap) : Nat :=
  (pools.map (fun kv => kv.2.alloc_point)).sum

/-- `liftStd` on a success. -/
theorem liftStd_ok {α : Type} (a : α) :
    liftStd (Except.ok a) = (.ok a : Except ContractError α) := rfl

/-- `liftStd` on an error. -/
theorem liftStd_error {α : Type} (e : StdErr) :
    liftStd (Except.error e) = (.error (.Std e) : Except ContractError α) :=
  rfl

/-- `ofOption` on a present value. -/
theorem ofOption_some {α : Type} (a : α) (e : ContractError) :
    ofOption (some a) e = .ok a := rfl

/-- `ofOption` on a missing value. -/
theorem ofOption_none {α : Type} (e : ContractError) :
    ofOption (none : Option α) e = .error e := rfl

/-- Appending a fresh pool adds its weight to the sum. -/
theorem sum_alloc_append (pools : PoolMap) (lp_token : Nat) (p : PoolInfo) :
    sum_alloc (pools ++ [(lp_token, p)]) = sum_alloc pools + p.alloc_point := by
  simp [sum_alloc]

/-- Replacing an absent key is the identity. -/
theorem replacePool_not_mem (pools : PoolMap) (lp_token : Nat) (p : PoolInfo)
    (h : ∀ kv ∈ pools, kv.1 ≠ lp_token) :
    replacePool pools lp_token p = pools := by
  induction pools with
  | nil => rfl
  | cons kv rest ih =>
    have h1 : (kv.1 == lp_token) = false :=
      beq_eq_false_iff_ne.mpr (h kv (List.mem_cons_self kv rest))
    have h2 : replacePool rest lp_token p = rest :=
      ih (fun kv' hm => h kv' (List.mem_cons_of_mem kv hm))
    show (if (kv.1 == lp_token) = true then (lp_token, p) else kv) ::
        replacePool rest lp_token p = kv :: rest
    rw [h1, h2]
    simp

/-- `replacePool` does not change the key list. -/
theorem replacePool_keys (pools : PoolMap) (lp_token : Nat) (p : PoolInfo) :
    (replacePool pools lp_token p).map (fun kv => kv.1) =
      pools.map (fun kv => kv.1) := by
  induction pools with
  | nil => rfl
  | cons kv rest ih =>
    show ((if (kv.1 == lp_token) = true then (lp_token, p) else kv) ::
        replacePool rest lp_token p).map (fun kv => kv.1) = _
    by_cases hk : (kv.1 == lp_token) = true
    · have hkeq : kv.1 = lp_token := by simpa using hk
      simp [hk, hkeq, ih]
    · simp [hk, ih]

/-- A failing pool lookup means the key is absent. -/
theorem lookupPool_none_not_mem (pools : PoolMap) (lp_token : Nat)
    (h : lookupPool pools lp_token = none) :
    ∀ kv ∈ pools, kv.1 ≠ lp_token := by
  induction pools with
  | nil => intro kv hm; cases hm
  | cons kv rest ih =>
    intro kv' hm
    by_cases hk : (kv.1 == lp_token) = true
    · exact absurd h (by simp [lookupPool, List.find?_cons, hk])
    · rcases List.mem_cons.mp hm with hh | ht
      · subst hh
        exact fun hc => hk (beq_iff_eq.mpr hc)
      · exact ih (by simpa [lookupPool, List.find?_cons, hk] using h) kv' ht

/-- Replacing the (unique) entry of a present key trades its weight for
the new one in the sum. -/
theorem sum_alloc_replace (pools : PoolMap) (lp_token : Nat)
    (p q : PoolInfo) (hnd : (pools.map (fun kv => kv.1)).Nodup)
    (hq : lookupPool pools lp_token = some q) :
    sum_alloc (replacePool pools lp_token p) + q.alloc_point =
      sum_alloc pools + p.alloc_point := by
  induction pools with
  | nil => exact absurd hq (by simp [lookupPool])
  | cons kv rest ih =>
    rw [List.map_cons, List.nodup_cons] at hnd
    obtain ⟨hd, hnd2⟩ := hnd
    by_cases hk : (kv.1 == lp_token) = true
    · have hkeq : kv.1 = lp_token := by simpa using hk
      have hqv : q = kv.2 := by
        have := hq
        simp [lookupPool, List.find?_cons, hk] at this
        exact this.symm
      have hrest : replacePool rest lp_token p = rest := by
        refine replacePool_not_mem rest lp_token p (fun kv' hm hc => hd ?_)
        rw [hkeq, ← hc]
        exact List.mem_map.mpr ⟨kv', hm, rfl⟩
      show sum_alloc ((if (kv.1 == lp_token) = true then (lp_token, p)
          else kv) :: replacePool rest lp_token p) + q.alloc_point = _
      rw [hk, if_pos rfl, hrest, hqv]
      simp [sum_alloc]
      omega
    · have hq' : lookupPool rest lp_token = some q := by
        simpa [lookupPool, List.find?_cons, hk] using hq
      have := ih hnd2 hq'
      show sum_alloc ((if (kv.1 == lp_token) = true then (lp_token, p)
          else kv) :: replacePool rest lp_token p) + q.alloc_point = _
      rw [if_neg hk]
      simp only [sum_alloc, List.map_cons, List.sum_cons] at this ⊢
      omega

/-- The mass snapshot keeps every pool's weight, hence the sum. -/
theorem sum_alloc_snapshot (ext : ExtState) (pools : PoolMap) :
    sum_alloc ((pools.map (snapshot_pool ext)).map (fun s => s.1)) =
      sum_alloc pools := by
  induction pools with
  | nil => rfl
  | cons kv rest ih =>
    have halloc : (snapshot_pool ext kv).1.2.alloc_point = kv.2.alloc_point := by
      cases hk : kv.2.reward_proxy <;> simp [snapshot_pool, hk]
    simp only [List.map_cons, sum_alloc, List.sum_cons] at ih ⊢
    rw [halloc, ih]

/-- Registering a fresh key keeps the key list duplicate-free. -/
theorem nodup_keys_append (pools : PoolMap) (lp_token : Nat) (p : PoolInfo)
    (hnd : (pools.map (fun kv => kv.1)).Nodup)
    (h : lookupPool pools lp_token = none) :
    ((pools ++ [(lp_token, p)]).map (fun kv => kv.1)).Nodup := by
  rw [List.map_append]
  refine List.Nodup.append hnd (List.nodup_singleton _) ?_
  intro a ha hb
  rw [List.map_singleton, List.mem_singleton] at hb
  obtain ⟨kv, hm, hk⟩ := List.mem_map.mp ha
  exact lookupPool_none_not_mem pools lp_token h kv hm (hk.trans hb)

/-- `savePool` on a present key replaces. -/
theorem savePool_present (pools : PoolMap) (lp_token : Nat) (p q : PoolInfo)
    (hq : lookupPool pools lp_token = some q) :
    savePool pools lp_token p = replacePool pools lp_token p := by
  unfold savePool
  rw [hq]
  rfl

/-- `savePool` on an absent key appends. -/
theorem savePool_absent (pools : PoolMap) (lp_token : Nat) (p : PoolInfo)
    (hq : lookupPool pools lp_token = none) :
    savePool pools lp_token p = pools ++ [(lp_token, p)] := by
  unfold savePool
  rw [hq]
  rfl

/-- The snapshot phase of `update_rewards_and_execute` never changes a
pool's weight, so a successful run preserves the weight sum. -/
theorem update_rewards_and_execute_sum (ext : ExtState) (cfg : Config)
    (intent : Option ExecuteOnReply) (pools : PoolMap)
    (only_lp_token : Option Nat) (on_reply : ExecuteOnReply)
    (intent1 : Option ExecuteOnReply) (pools1 : PoolMap)
    (msgs : List OutMsg)
    (hnd : (pools.map (fun kv => kv.1)).Nodup)
    (h : update_rewards_and_execute ext cfg intent pools only_lp_token
      on_reply = .ok (intent1, pools1, msgs)) :
    sum_alloc pools1 = sum_alloc pools := by
  unfold update_rewards_and_execute at h
  cases intent with
  | some i => exact Except.noConfusion h
  | none =>
      simp only [ok_bind] at h
      cases only_lp_token with
      | some lp_token =>
          try simp only [] at h
          cases hlp : lookupPool pools lp_token with
          | none =>
              rw [hlp] at h
              exact Except.noConfusion h
          | some pl =>
              rw [hlp] at h
              simp only [ofOption_some, ok_bind] at h
              cases hrp : pl.reward_proxy with
              | none =>
                  rw [hrp] at h
                  simp only [Except.ok.injEq, Prod.mk.injEq] at h
                  rw [← h.2.1]
              | some proxy =>
                  rw [hrp] at h
                  simp only [Except.ok.injEq, Prod.mk.injEq] at h
                  rw [← h.2.1]
                  rw [savePool_present pools lp_token _ pl hlp]
                  have hsum := sum_alloc_replace pools lp_token
                    { pl with
                        reward_proxy := some proxy,
                        proxy_reward_balance_before_update :=
                          ext.proxy_reward proxy } pl hnd hlp
                  have halloc : ({ pl with
                      reward_proxy := some proxy,
                      proxy_reward_balance_before_update :=
                        ext.proxy_reward proxy } : PoolInfo).alloc_point =
                      pl.alloc_point := rfl
                  rw [halloc] at hsum
                  omega
      | none =>
          simp only [Except.ok.injEq, Prod.mk.injEq] at h
          rw [← h.2.1]
          exact sum_alloc_snapshot ext pools

/-- Invert a successful `Except` bind. -/
theorem bind_ok_inv {ε α β : Type} (x : Except ε α) (f : α → Except ε β)
    (b : β) (h : x >>= f = .ok b) : ∃ a, x = .ok a ∧ f a = .ok b := by
  cases x with
  | ok a => exact ⟨a, rfl, h⟩
  | error e => exact Except.noConfusion h

/-- Invert a successful lifted `checked_add_u64`. -/
theorem checked_add_u64_ok (a b v : Nat)
    (h : liftStd (checked_add_u64 a b) =
      (.ok v : Except ContractError Nat)) : v = a + b := by
  unfold checked_add_u64 at h
  by_cases hov : a + b < 2 ^ 64
  · rw [if_pos hov, liftStd_ok] at h
    exact (Except.ok.inj h).symm
  · rw [if_neg hov, liftStd_error] at h
    exact Except.noConfusion h

/-- Invert a successful lifted `checked_sub`. -/
theorem checked_sub_ok (a b v : Nat)
    (h : liftStd (checked_sub a b) = (.ok v : Except ContractError Nat)) :
    v = a - b ∧ b ≤ a := by
  unfold checked_sub at h
  by_cases hle : b ≤ a
  · rw [if_pos hle, liftStd_ok] at h
    exact ⟨(Except.ok.inj h).symm, hle⟩
  · rw [if_neg hle, liftStd_error] at h
    exact Except.noConfusion h

/-- Invert a successful `ofOption`. -/
theorem ofOption_ok_inv {α : Type} (o : Option α) (e : ContractError)
    (a : α) (h : ofOption o e = .ok a) : o = some a := by
  cases o with
  | some x => exact congrArg some (Except.ok.inj h)
  | none => exact Except.noConfusion h

/-- C3: after every successful `add` and every successful `set`,
`config.total_alloc_point` equals the sum of `alloc_point` over all
registered pools — the two operations that mutate pool weights preserve
the invariant (the deferred snapshot scheduling they may trigger never
touches a weight). -/
theorem total_alloc_point_invariant :
    (∀ (ext : ExtState) (height sender lp_token alloc_point : Nat)
        (with_update : Bool) (reward_proxy : Option Nat) (cfg : Config)
        (intent : Option ExecuteOnReply) (pools : PoolMap) (cfg1 : Config)
        (intent1 : Option ExecuteOnReply) (pools1 : PoolMap)
        (msgs : List OutMsg),
      (pools.map (fun kv => kv.1)).Nodup →
      cfg.total_alloc_point = sum_alloc pools →
      add ext height sender lp_token alloc_point with_update reward_proxy
        cfg intent pools = .ok (cfg1, intent1, pools1, msgs) →
      cfg1.total_alloc_point = sum_alloc pools1) ∧
    (∀ (ext : ExtState) (sender lp_token alloc_point : Nat)
        (with_update : Bool) (cfg : Config)
        (intent : Option ExecuteOnReply) (pools : PoolMap) (cfg1 : Config)
        (intent1 : Option ExecuteOnReply) (pools1 : PoolMap)
        (msgs : List OutMsg),
      (pools.map (fun kv => kv.1)).Nodup →
      cfg.total_alloc_point = sum_alloc pools →
      set ext sender lp_token alloc_point with_update cfg intent pools =
        .ok (cfg1, intent1, pools1, msgs) →
      cfg1.total_alloc_point = sum_alloc pools1) := by
  constructor
  · intro ext height sender lp_token alloc_point with_update reward_proxy
      cfg intent pools cfg1 intent1 pools1 msgs hnd hinv h
    unfold add at h
    try simp only [] at h
    by_cases hauth : sender ≠ cfg.owner
    · rw [if_pos hauth, throw_eq, error_bind] at h
      exact Except.noConfusion h
    rw [if_neg hauth, pure_eq_ok, ok_bind] at h
    try simp only [] at h
    by_cases hex : (lookupPool pools lp_token).isSome = true
    · rw [if_pos hex, throw_eq, error_bind] at h
      exact Except.noConfusion h
    rw [if_neg hex, ok_bind] at h
    try simp only [] at h
    have hlook : lookupPool pools lp_token = none :=
      Option.not_isSome_iff_eq_none.mp hex
    cases reward_proxy with
    | some rp =>
        try simp only [] at h
        by_cases hal : rp ∈ cfg.allowed_reward_proxies
        · rw [if_pos hal, ok_bind] at h
          try simp only [] at h
          obtain ⟨total, hca, h⟩ := bind_ok_inv _ _ _ h
          try simp only [] at h
          have htot := checked_add_u64_ok _ _ _ hca
          cases with_update with
          | false =>
              rw [if_neg Bool.false_ne_true] at h
              simp only [Except.ok.injEq, Prod.mk.injEq] at h
              obtain ⟨hc1, _, hp1, _⟩ := h
              rw [← hc1, ← hp1, savePool_absent pools lp_token _ hlook,
                sum_alloc_append]
              simp only []
              omega
          | true =>
              rw [if_pos rfl] at h
              obtain ⟨r3, hr, h⟩ := bind_ok_inv _ _ _ h
              obtain ⟨i1, p1, ms⟩ := r3
              simp only [Except.ok.injEq, Prod.mk.injEq] at h
              obtain ⟨hc1, _, hp1, _⟩ := h
              rw [savePool_absent pools lp_token _ hlook] at hr
              have hsum := update_rewards_and_execute_sum _ _ _ _ _ _ _ _ _
                (nodup_keys_append pools lp_token _ hnd hlook) hr
              rw [sum_alloc_append] at hsum
              rw [← hc1, ← hp1]
              simp only [] at hsum ⊢
              omega
        · rw [if_neg hal, throw_eq, error_bind] at h
          exact Except.noConfusion h
    | none =>
        try simp only [] at h
        rw [ok_bind] at h
        try simp only [] at h
        obtain ⟨total, hca, h⟩ := bind_ok_inv _ _ _ h
        try simp only [] at h
        have htot := checked_add_u64_ok _ _ _ hca
        cases with_update with
        | false =>
            rw [if_neg Bool.false_ne_true] at h
            simp only [Except.ok.injEq, Prod.mk.injEq] at h
            obtain ⟨hc1, _, hp1, _⟩ := h
            rw [← hc1, ← hp1, savePool_absent pools lp_token _ hlook,
              sum_alloc_append]
            simp only []
            omega
        | true =>
            rw [if_pos rfl] at h
            obtain ⟨r3, hr, h⟩ := bind_ok_inv _ _ _ h
            obtain ⟨i1, p1, ms⟩ := r3
            simp only [Except.ok.injEq, Prod.mk.injEq] at h
            obtain ⟨hc1, _, hp1, _⟩ := h
            rw [savePool_absent pools lp_token _ hlook] at hr
            have hsum := update_rewards_and_execute_sum _ _ _ _ _ _ _ _ _
              (nodup_keys_append pools lp_token _ hnd hlook) hr
            rw [sum_alloc_append] at hsum
            rw [← hc1, ← hp1]
            simp only [] at hsum ⊢
            omega
  · intro ext sender lp_token alloc_point with_update cfg intent pools cfg1
      intent1 pools1 msgs hnd hinv h
    unfold set at h
    try simp only [] at h
    by_cases hauth : sender ≠ cfg.owner
    · rw [if_pos hauth, throw_eq, error_bind] at h
      exact Except.noConfusion h
    rw [if_neg hauth, pure_eq_ok, ok_bind] at h
    try simp only [] at h
    obtain ⟨q, hlpq, h⟩ := bind_ok_inv _ _ _ h
    try simp only [] at h
    have hlp : lookupPool pools lp_token = some q := ofOption_ok_inv _ _ _ hlpq
    obtain ⟨t1, hcs, h⟩ := bind_ok_inv _ _ _ h
    try simp only [] at h
    obtain ⟨ht1, hsub⟩ := checked_sub_ok _ _ _ hcs
    obtain ⟨total, hca, h⟩ := bind_ok_inv _ _ _ h
    try simp only [] at h
    have htot := checked_add_u64_ok _ _ _ hca
    have hsum := sum_alloc_replace pools lp_token
      { q with alloc_point := alloc_point } q hnd hlp
    have halloc : ({ q with alloc_point := alloc_point } :
        PoolInfo).alloc_point = alloc_point := rfl
    rw [halloc] at hsum
    cases with_update with
    | false =>
        rw [if_neg Bool.false_ne_true] at h
        simp only [Except.ok.injEq, Prod.mk.injEq] at h
        obtain ⟨hc1, _, hp1, _⟩ := h
        rw [← hc1, ← hp1, savePool_present pools lp_token _ q hlp]
        simp only []
        omega
    | true =>
        rw [if_pos rfl] at h
        obtain ⟨r3, hr, h⟩ := bind_ok_inv _ _ _ h
        obtain ⟨i1, p1, ms⟩ := r3
        simp only [Except.ok.injEq, Prod.mk.injEq] at h
        obtain ⟨hc1, _, hp1, _⟩ := h
        rw [savePool_present pools lp_token _ q hlp] at hr
        have hnd2 : ((replacePool pools lp_token
            { q with alloc_point := alloc_point }).map
              (fun kv => kv.1)).Nodup := by
          rw [replacePool_keys]
          exact hnd
        have hsum2 := update_rewards_and_execute_sum _ _ _ _ _ _ _ _ _
          hnd2 hr
        rw [← hc1, ← hp1]
        simp only [] at hsum2 ⊢
        omega

/-- An empty gauge configuration (no pools yet, zero total weight). -/
def cfgW : Config := { cfgB with total_alloc_point := 0 }

/-- The pool that `add` registers in the C3 witness run. -/
def poolW : PoolInfo :=
  { alloc_point := 7, last_reward_block := 0, acc_per_share := 0,
    reward_proxy := none, acc_per_share_on_proxy := 0,
    proxy_reward_balance_before_update := 0 }

/-- C3 (witness): the owner adds pool `42` with weight `7` to the empty
gauge; the invariant holds on the result. -/
theorem total_alloc_point_invariant_witness :
    ({ cfgW with total_alloc_point := 7 } : Config).total_alloc_point =
      sum_alloc [(42, poolW)] :=
  total_alloc_point_invariant.1 extB 0 1 42 7 false none cfgW none []
    { cfgW with total_alloc_point := 7 } none [(42, poolW)] []
    (by decide) (by decide) (by decide)

/-- After `saveUser`, the `(lp_token, account)` entry holds the saved
value. -/
theorem lookupUser_saveUser (users : UserMap) (lp_token account : Nat)
    (u : UserInfo) :
    lookupUser (saveUser users lp_token account u) lp_token account =
      some u := by
  simp [lookupUser, saveUser]

/-- The proxied track only emits the dev `SendRewards` message. -/
theorem accrue_proxy_track_msgs (ext : ExtState) (proxy : Nat)
    (pool : PoolInfo) (cfg : Config) (s : Nat) (p : PoolInfo)
    (m : List OutMsg)
    (h : accrue_proxy_track ext proxy pool cfg = .ok (s, p, m)) :
    ∀ msg ∈ m, is_lp_token_msg msg = false := by
  unfold accrue_proxy_track at h
  by_cases hs : ext.proxy_lp_supply proxy ≠ 0
  · rw [if_pos hs] at h
    obtain ⟨delta, _, h⟩ := bind_ok_inv _ _ _ h
    try simp only [] at h
    obtain ⟨dev, _, h⟩ := bind_ok_inv _ _ _ h
    try simp only [] at h
    obtain ⟨tok, _, h⟩ := bind_ok_inv _ _ _ h
    try simp only [] at h
    simp only [Except.ok.injEq, Prod.mk.injEq] at h
    obtain ⟨_, _, hm⟩ := h
    intro msg hmem
    rw [← hm] at hmem
    rw [List.mem_singleton] at hmem
    subst hmem
    rfl
  · rw [if_neg hs] at h
    simp only [Except.ok.injEq, Prod.mk.injEq] at h
    obtain ⟨_, _, hm⟩ := h
    intro msg hmem
    rw [← hm] at hmem
    cases hmem

/-- The direct track only emits the capped dev ASTRO transfer. -/
theorem accrue_direct_track_msgs (ext : ExtState) (height lp_supply : Nat)
    (pool : PoolInfo) (cfg : Config) (p : PoolInfo) (m : List OutMsg)
    (h : accrue_direct_track ext height lp_supply pool cfg = .ok (p, m)) :
    ∀ msg ∈ m, is_lp_token_msg msg = false := by
  unfold accrue_direct_track at h
  by_cases hlt : pool.last_reward_block < height
  · rw [if_pos hlt] at h
    by_cases hs : lp_supply ≠ 0
    · rw [if_pos hs] at h
      obtain ⟨R, _, h⟩ := bind_ok_inv _ _ _ h
      try simp only [] at h
      obtain ⟨dev, _, h⟩ := bind_ok_inv _ _ _ h
      try simp only [] at h
      simp only [Except.ok.injEq, Prod.mk.injEq] at h
      obtain ⟨_, hm⟩ := h
      intro msg hmem
      rw [← hm] at hmem
      rw [List.mem_singleton] at hmem
      subst hmem
      rfl
    · rw [if_neg hs] at h
      simp only [Except.ok.injEq, Prod.mk.injEq] at h
      obtain ⟨_, hm⟩ := h
      intro msg hmem
      rw [← hm] at hmem
      cases hmem
  · rw [if_neg hlt] at h
    simp only [Except.ok.injEq, Prod.mk.injEq] at h
    obtain ⟨_, hm⟩ := h
    intro msg hmem
    rw [← hm] at hmem
    cases hmem

/-- A pool settlement emits no LP-token custody message. -/
theorem update_pool_rewards_msgs (ext : ExtState) (height lp_token : Nat)
    (pool : PoolInfo) (cfg : Config) (p : PoolInfo) (m : List OutMsg)
    (h : update_pool_rewards ext height lp_token pool cfg = .ok (p, m)) :
    ∀ msg ∈ m, is_lp_token_msg msg = false := by
  unfold update_pool_rewards at h
  cases hp : pool.reward_proxy with
  | none =>
      rw [hp] at h
      simp only [ok_bind] at h
      obtain ⟨pr, hd, h⟩ := bind_ok_inv _ _ _ h
      obtain ⟨p1, m1⟩ := pr
      simp only [Except.ok.injEq, Prod.mk.injEq] at h
      obtain ⟨_, hm⟩ := h
      intro msg hmem
      rw [← hm] at hmem
      rw [List.nil_append] at hmem
      exact accrue_direct_track_msgs ext height (ext.lp_balance lp_token)
        pool cfg p1 m1 hd msg hmem
  | some proxy =>
      rw [hp] at h
      simp only [] at h
      obtain ⟨spm, hq, h⟩ := bind_ok_inv _ _ _ h
      obtain ⟨s0, p0, m0⟩ := spm
      try simp only [] at h
      obtain ⟨pr, hd, h⟩ := bind_ok_inv _ _ _ h
      obtain ⟨p1, m1⟩ := pr
      simp only [Except.ok.injEq, Prod.mk.injEq] at h
      obtain ⟨_, hm⟩ := h
      intro msg hmem
      rw [← hm] at hmem
      rcases List.mem_append.mp hmem with h0 | h1
      · exact accrue_proxy_track_msgs ext proxy pool cfg s0 p0 m0 hq msg h0
      · exact accrue_direct_track_msgs ext height s0 p0 cfg p1 m1 hd msg h1

/-- C9: for a user with a nonzero stake, `deposit` of amount `0` succeeds
as a pure harvest: the stored stake is unchanged, the pending rewards of
both tracks are paid out (capped ASTRO transfer; proxy `SendRewards`), no
LP-token custody message is emitted, and the reward debts are reset to
stake times the settled accumulators whenever those are nonzero (and left
unchanged when an accumulator is zero).  The hypotheses are the ledger
invariant `reward_debt ≤ stake * acc_per_share` on both tracks and a
successful pool settlement. -/
theorem deposit_zero_harvest (ext : ExtState) (height lp_token account : Nat)
    (cfg : Config) (pools : PoolMap) (users : UserMap)
    (pool pool1 : PoolInfo) (user : UserInfo) (msgs1 : List OutMsg)
    (hu : lookupUser users lp_token account = some user)
    (hnz : user.amount ≠ 0)
    (hb : user.amount < 2 ^ 128)
    (hpool : lookupPool pools lp_token = some pool)
    (hupd : update_pool_rewards ext height lp_token pool cfg =
      .ok (pool1, msgs1))
    (hdebt : user.reward_debt ≤ mul_dec user.amount pool1.acc_per_share)
    (hdebtp : ∀ proxy, pool1.reward_proxy = some proxy →
      user.reward_debt_proxy ≤
        mul_dec user.amount pool1.acc_per_share_on_proxy) :
    ∃ users1 msgs,
      deposit ext height lp_token account 0 cfg pools users =
        .ok (savePool pools lp_token pool1, users1, msgs) ∧
      (∃ u1, lookupUser users1 lp_token account = some u1 ∧
        u1.amount = user.amount ∧
        (pool1.acc_per_share ≠ 0 →
          u1.reward_debt = mul_dec user.amount pool1.acc_per_share) ∧
        (pool1.acc_per_share = 0 → u1.reward_debt = user.reward_debt) ∧
        (pool1.acc_per_share_on_proxy ≠ 0 →
          u1.reward_debt_proxy =
            mul_dec user.amount pool1.acc_per_share_on_proxy) ∧
        (pool1.acc_per_share_on_proxy = 0 →
          u1.reward_debt_proxy = user.reward_debt_proxy)) ∧
      (mul_dec user.amount pool1.acc_per_share - user.reward_debt ≠ 0 →
        OutMsg.astroTransfer account
          (min (mul_dec user.amount pool1.acc_per_share - user.reward_debt)
            ext.astro_balance) ∈ msgs) ∧
      (∀ proxy, pool1.reward_proxy = some proxy →
        mul_dec user.amount pool1.acc_per_share_on_proxy -
            user.reward_debt_proxy ≠ 0 →
        OutMsg.proxySendRewards proxy account
          (mul_dec user.amount pool1.acc_per_share_on_proxy -
            user.reward_debt_proxy) ∈ msgs) ∧
      (∀ msg ∈ msgs, is_lp_token_msg msg = false) := by
  have hcs : liftStd (checked_sub (mul_dec user.amount pool1.acc_per_share)
      user.reward_debt) =
      (.ok (mul_dec user.amount pool1.acc_per_share - user.reward_debt) :
        Except ContractError Nat) := by
    unfold checked_sub
    rw [if_pos hdebt]
    rfl
  have hca : liftStd (checked_add_u128 user.amount 0) =
      (.ok (user.amount + 0) : Except ContractError Nat) := by
    unfold checked_add_u128
    rw [if_pos (by omega)]
    rfl
  cases hrp : pool1.reward_proxy with
  | none =>
      refine ⟨saveUser users lp_token account
          (let amount1 := user.amount + 0
           let user1 : UserInfo := { user with amount := amount1 }
           let user2 := if pool1.acc_per_share ≠ 0 then
               { user1 with
                  reward_debt := mul_dec amount1 pool1.acc_per_share }
             else user1
           if pool1.acc_per_share_on_proxy ≠ 0 then
             { user2 with
                reward_debt_proxy :=
                  mul_dec amount1 pool1.acc_per_share_on_proxy }
           else user2),
        (msgs1 ++ (if mul_dec user.amount pool1.acc_per_share -
              user.reward_debt ≠ 0 then
            [safe_reward_transfer_message ext account
              (mul_dec user.amount pool1.acc_per_share - user.reward_debt)]
          else [])) ++ [],
        ?_, ?_, ?_, ?_, ?_⟩
      · unfold deposit
        rw [hu]
        simp only [Option.getD_some]
        rw [hpool]
        simp only [ofOption_some, ok_bind]
        rw [hupd]
        simp only [liftStd_ok, ok_bind]
        rw [if_pos hnz, hcs]
        simp only [ok_bind]
        rw [hrp]
        simp only []
        rw [if_neg (by decide : ¬ ((0 : Nat) ≠ 0))]
        rw [hca]
        simp only [pure_eq_ok, ok_bind]
      · refine ⟨_, lookupUser_saveUser _ _ _ _, ?_, ?_, ?_, ?_, ?_⟩
        · by_cases h1 : pool1.acc_per_share_on_proxy ≠ 0 <;>
            by_cases h2 : pool1.acc_per_share ≠ 0 <;>
              simp [h1, h2]
        · intro h2
          by_cases h1 : pool1.acc_per_share_on_proxy ≠ 0 <;>
            simp [h1, h2]
        · intro h2
          by_cases h1 : pool1.acc_per_share_on_proxy ≠ 0 <;>
            simp [h1, h2]
        · intro h1
          by_cases h2 : pool1.acc_per_share ≠ 0 <;>
            simp [h1, h2]
        · intro h1
          by_cases h2 : pool1.acc_per_share ≠ 0 <;>
            simp [h1, h2]
      · intro hpend
        simp [safe_reward_transfer_message, hpend, List.mem_append]
      · intro proxy hc
        exact Option.noConfusion hc
      · intro msg hm
        rcases List.mem_append.mp hm with h2 | h4
        · rcases List.mem_append.mp h2 with h1 | h3
          · exact update_pool_rewards_msgs _ _ _ _ _ _ _ hupd msg h1
          · by_cases hp0 : mul_dec user.amount pool1.acc_per_share -
                user.reward_debt ≠ 0
            · rw [if_pos hp0] at h3
              rw [List.mem_singleton] at h3
              subst h3
              rfl
            · rw [if_neg hp0] at h3
              cases h3
        · cases h4
  | some proxy =>
      have hcsp : liftStd (checked_sub
          (mul_dec user.amount pool1.acc_per_share_on_proxy)
          user.reward_debt_proxy) =
          (.ok (mul_dec user.amount pool1.acc_per_share_on_proxy -
            user.reward_debt_proxy) : Except ContractError Nat) := by
        unfold checked_sub
        rw [if_pos (hdebtp proxy hrp)]
        rfl
      refine ⟨saveUser users lp_token account
          (let amount1 := user.amount + 0
           let user1 : UserInfo := { user with amount := amount1 }
           let user2 := if pool1.acc_per_share ≠ 0 then
               { user1 with
                  reward_debt := mul_dec amount1 pool1.acc_per_share }
             else user1
           if pool1.acc_per_share_on_proxy ≠ 0 then
             { user2 with
                reward_debt_proxy :=
                  mul_dec amount1 pool1.acc_per_share_on_proxy }
           else user2),
        (msgs1 ++ ((if mul_dec user.amount pool1.acc_per_share -
              user.reward_debt ≠ 0 then
            [safe_reward_transfer_message ext account
              (mul_dec user.amount pool1.acc_per_share - user.reward_debt)]
          else []) ++
          (if mul_dec user.amount pool1.acc_per_share_on_proxy -
              user.reward_debt_proxy ≠ 0 then
            [OutMsg.proxySendRewards proxy account
              (mul_dec user.amount pool1.acc_per_share_on_proxy -
                user.reward_debt_proxy)]
          else []))) ++ [],
        ?_, ?_, ?_, ?_, ?_⟩
      · unfold deposit
        rw [hu]
        simp only [Option.getD_some]
        rw [hpool]
        simp only [ofOption_some, ok_bind]
        rw [hupd]
        simp only [liftStd_ok, ok_bind]
        rw [if_pos hnz, hcs]
        simp only [ok_bind]
        rw [hrp]
        simp only []
        rw [hcsp]
        simp only [ok_bind]
        rw [if_neg (by decide : ¬ ((0 : Nat) ≠ 0))]
        rw [hca]
        simp only [pure_eq_ok, ok_bind]
      · refine ⟨_, lookupUser_saveUser _ _ _ _, ?_, ?_, ?_, ?_, ?_⟩
        · by_cases h1 : pool1.acc_per_share_on_proxy ≠ 0 <;>
            by_cases h2 : pool1.acc_per_share ≠ 0 <;>
              simp [h1, h2]
        · intro h2
          by_cases h1 : pool1.acc_per_share_on_proxy ≠ 0 <;>
            simp [h1, h2]
        · intro h2
          by_cases h1 : pool1.acc_per_share_on_proxy ≠ 0 <;>
            simp [h1, h2]
        · intro h1
          by_cases h2 : pool1.acc_per_share ≠ 0 <;>
            simp [h1, h2]
        · intro h1
          by_cases h2 : pool1.acc_per_share ≠ 0 <;>
            simp [h1, h2]
      · intro hpend
        simp [safe_reward_transfer_message, hpend, List.mem_append]
      · intro proxy2 hc hpodd
        have hpeq : proxy2 = proxy := (Option.some.inj hc).symm
        subst hpeq
        simp [hpodd, List.mem_append]
      · intro msg hm
        rcases List.mem_append.mp hm with h2 | h4
        · rcases List.mem_append.mp h2 with h1 | h3
          · exact update_pool_rewards_msgs _ _ _ _ _ _ _ hupd msg h1
          · rcases List.mem_append.mp h3 with h5 | h6
            · by_cases hp0 : mul_dec user.amount pool1.acc_per_share -
                  user.reward_debt ≠ 0
              · rw [if_pos hp0] at h5
                rw [List.mem_singleton] at h5
                subst h5
                rfl
              · rw [if_neg hp0] at h5
                cases h5
            · by_cases hp0 : mul_dec user.amount
                  pool1.acc_per_share_on_proxy -
                  user.reward_debt_proxy ≠ 0
              · rw [if_pos hp0] at h6
                rw [List.mem_singleton] at h6
                subst h6
                rfl
              · rw [if_neg hp0] at h6
                cases h6
        · cases h4

/-- The stored position of account `4` in pool `3` (stake `5`). -/
def userB : UserInfo := { amount := 5, reward_debt := 0, reward_debt_proxy := 0 }

/-- `poolB` after settlement at block 10. -/
def poolB1 : PoolInfo :=
  { poolB with acc_per_share := from_ratio 100000 1, last_reward_block := 10 }

/-- C9 (witness): account `4` deposits `0` into the settled direct pool
`3` while holding a stake of `5`. -/
theorem deposit_zero_harvest_witness :
    ∃ users1 msgs,
      deposit extB 10 3 4 0 cfgB [(3, poolB)] usersB =
        .ok (savePool [(3, poolB)] 3 poolB1, users1, msgs) ∧
      (∃ u1, lookupUser users1 3 4 = some u1 ∧
        u1.amount = userB.amount ∧
        (poolB1.acc_per_share ≠ 0 →
          u1.reward_debt = mul_dec userB.amount poolB1.acc_per_share) ∧
        (poolB1.acc_per_share = 0 → u1.reward_debt = userB.reward_debt) ∧
        (poolB1.acc_per_share_on_proxy ≠ 0 →
          u1.reward_debt_proxy =
            mul_dec userB.amount poolB1.acc_per_share_on_proxy) ∧
        (poolB1.acc_per_share_on_proxy = 0 →
          u1.reward_debt_proxy = userB.reward_debt_proxy)) ∧
      (mul_dec userB.amount poolB1.acc_per_share - userB.reward_debt ≠ 0 →
        OutMsg.astroTransfer 4
          (min (mul_dec userB.amount poolB1.acc_per_share -
            userB.reward_debt) extB.astro_balance) ∈ msgs) ∧
      (∀ proxy, poolB1.reward_proxy = some proxy →
        mul_dec userB.amount poolB1.acc_per_share_on_proxy -
            userB.reward_debt_proxy ≠ 0 →
        OutMsg.proxySendRewards proxy 4
          (mul_dec userB.amount poolB1.acc_per_share_on_proxy -
            userB.reward_debt_proxy) ∈ msgs) ∧
      (∀ msg ∈ msgs, is_lp_token_msg msg = false) :=
  deposit_zero_harvest extB 10 3 4 cfgB [(3, poolB)] usersB poolB poolB1
    userB [OutMsg.astroTransfer 2 10000] (by decide) (by decide) (by decide)
    (by decide) (by decide) (by decide)
    (fun _ hc => Option.noConfusion hc)

end AstroportGauge
